import Mathlib

/-!
Verification development for the trade-show calendar cleaner
(`clean_tradeshow.py`).  The Python source is shallowly embedded: Python
strings become `List Char` (ASCII-faithful: Python `str.upper`, `str.lower`
and the regexes involved only act on ASCII here), Python `int` becomes `Nat`
(all numbers in this program are non-negative), Python `None` becomes
`Option`, raised exceptions become `Except.error`, and `pandas.DataFrame`
becomes an explicit structure recording its rows and whether it has columns
(an empty frame built from an empty row list has no columns, which matters
for column access).  Python float arithmetic inside `_parse_count` is
modelled by exact arithmetic; the inputs exercised by the claims are exact
in both.
-/

namespace TradeShow

/-- Python `str` modelled as a list of characters. -/
abbrev Str := List Char

instance {ε α : Type} [DecidableEq ε] [DecidableEq α] : DecidableEq (Except ε α) := fun a b =>
  match a, b with
  | .error e, .error f =>
    if h : e = f then .isTrue (congrArg Except.error h)
    else .isFalse (fun hh => h (by injection hh))
  | .ok x, .ok y =>
    if h : x = y then .isTrue (congrArg Except.ok h)
    else .isFalse (fun hh => h (by injection hh))
  | .error _, .ok _ => .isFalse (fun hh => Except.noConfusion hh)
  | .ok _, .error _ => .isFalse (fun hh => Except.noConfusion hh)

/-- Characters matched by the regex class `\s` (ASCII). -/
def isPySpace (c : Char) : Bool :=
  c == ' ' || c == '\t' || c == '\n' || c == '\r' || c == '\x0b' || c == '\x0c'

/-- Python `str.strip()`: drop whitespace from both ends. -/
def pyStrip (s : Str) : Str :=
  ((s.dropWhile isPySpace).reverse.dropWhile isPySpace).reverse

/-- Numeric value of a run of decimal digit characters (Python `int(...)`). -/
def natOfDigits (s : Str) : Nat :=
  s.foldl (fun a c => a * 10 + (c.toNat - 48)) 0

/-- Python truthiness of an optional integer: `None` and `0` are falsy. -/
def truthyN (x : Option Nat) : Bool :=
  match x with
  | none => false
  | some n => n != 0

/-- Python `a or b` on optional integers. -/
def pyOrNat (a b : Option Nat) : Option Nat :=
  if truthyN a then a else b

/- ------------------------------------------------------------------ -/
/- Count Normalizer: `_parse_count` (clean_tradeshow.py lines 16-41)  -/
/- ------------------------------------------------------------------ -/

/-- `re.sub(r'[\s,~+]', '', txt.lower())`. -/
def cleanCount (s : Str) : Str :=
  (s.map Char.toLower).filter
    (fun c => !(isPySpace c || c == ',' || c == '~' || c == '+'))

/-- Helper for `rangeSplit`; `acc` holds the reversed prefix read so far. -/
def rangeSplitAux (acc : Str) : Str → Option (Str × Str)
  | [] => none
  | c :: rest =>
    if c == '-' && !acc.isEmpty && !rest.isEmpty then some (acc.reverse, rest)
    else rangeSplitAux (c :: acc) rest

/-- `re.match(r'(.+?)-(.+)$', s)`: split at the first hyphen that has at
least one character before it and one after it. -/
def rangeSplit (s : Str) : Option (Str × Str) :=
  rangeSplitAux [] s

/-- Round an exact fraction `num / den` to the nearest integer, ties to
even (Python `round`; the floats arising here are modelled exactly). -/
def roundHalfEven (num den : Nat) : Nat :=
  let q := num / den
  let r := num % den
  if 2 * r < den then q
  else if den < 2 * r then q + 1
  else if q % 2 == 0 then q else q + 1

/-- `re.match(r'(\d+(?:\.\d+)?)([km])?$', part)`: leading digits, an
optional fraction, an optional unit letter, then end of string.  Returns
(integer digits, fraction digits, optional unit). -/
def numUnitMatch (s : Str) : Option (Str × Str × Option Char) :=
  let I := s.takeWhile Char.isDigit
  if I.isEmpty then none else
  match s.drop I.length with
  | [] => some (I, [], none)
  | '.' :: t =>
    let F := t.takeWhile Char.isDigit
    if F.isEmpty then none else
    match t.drop F.length with
    | [] => some (I, F, none)
    | [u] => if u == 'k' || u == 'm' then some (I, F, some u) else none
    | _ => none
  | [u] => if u == 'k' || u == 'm' then some (I, [], some u) else none
  | _ => none

/-- `re.findall(r'\d+', part)`: value of the first contiguous digit run. -/
def firstDigitRun : Str → Option Nat
  | [] => none
  | c :: cs =>
    if c.isDigit then some (natOfDigits ((c :: cs).takeWhile Char.isDigit))
    else firstDigitRun cs

/-- The inner `_to_num` of `_parse_count`. -/
def toNum (part : Str) : Option Nat :=
  if part.isEmpty then none else
  match numUnitMatch part with
  | some (I, F, u) =>
    let scale := if u == some 'k' then 1000
                 else if u == some 'm' then 1000000 else 1
    some (roundHalfEven ((natOfDigits I * 10 ^ F.length + natOfDigits F) * scale)
                        (10 ^ F.length))
  | none => firstDigitRun part

/-- `_parse_count` (lines 16-41): counts like `20k-50k`, `500+`, `12,345`.
The range branch mirrors line 40 exactly: `int((a + b) / 2) if a and b
else (a or b)`, including Python truthiness (a part equal to 0 is falsy). -/
def parse_count (txt : Option Str) : Option Nat :=
  match txt with
  | none => none
  | some raw =>
    if raw.isEmpty then none else
    let s := cleanCount raw
    match rangeSplit s with
    | some (p, q) =>
      let a := toNum p
      let b := toNum q
      if truthyN a && truthyN b then some ((a.getD 0 + b.getD 0) / 2)
      else pyOrNat a b
    | none => toNum s

/- ------------------------------------------------------------------ -/
/- Date-Range Normalizer (clean_tradeshow.py lines 43-74)             -/
/- ------------------------------------------------------------------ -/

/-- The month table `MONTHS` (lines 11-12). -/
def MONTHS : List (Str × Nat) :=
  [("JAN".data, 1), ("FEB".data, 2), ("MAR".data, 3), ("APR".data, 4),
   ("MAY".data, 5), ("JUN".data, 6), ("JUL".data, 7), ("AUG".data, 8),
   ("SEP".data, 9), ("OCT".data, 10), ("NOV".data, 11), ("DEC".data, 12)]

/-- `MONTHS.get(tok)`. -/
def monthsGet (tok : Str) : Option Nat :=
  (MONTHS.find? (fun p => p.1 == tok)).map (fun p => p.2)

/-- Split a string at the first occurrence of `c` (Python `split(c, 1)`
when it succeeds). -/
def splitFirstAux (c : Char) (acc : Str) : Str → Option (Str × Str)
  | [] => none
  | x :: xs =>
    if x == c then some (acc.reverse, xs) else splitFirstAux c (x :: acc) xs

def splitFirst (c : Char) (s : Str) : Option (Str × Str) :=
  splitFirstAux c [] s

/-- Python `str.split(c)` (split at every occurrence; `""` gives `[""]`). -/
def splitAllAux (c : Char) (acc : Str) : Str → List Str
  | [] => [acc.reverse]
  | x :: xs =>
    if x == c then acc.reverse :: splitAllAux c [] xs
    else splitAllAux c (x :: acc) xs

def splitAll (c : Char) (s : Str) : List Str :=
  splitAllAux c [] s

def isUpperAZ (c : Char) : Bool :=
  65 ≤ c.toNat && c.toNat ≤ 90

def allDigits (s : Str) : Bool :=
  s.all Char.isDigit

/-- `re.match(r'([A-Z]{3})/(\d{1,2})(?:/(\d{2,4}))?$', t)`: three capital
letters, a slash, a 1-2 digit day, optionally a slash and a 2-4 digit
year, then end of string.  Returns (token, day digits, year digits). -/
def dateRegexMatch (t : Str) : Option (Str × Str × Option Str) :=
  match t with
  | a :: b :: c :: '/' :: rest =>
    if isUpperAZ a && isUpperAZ b && isUpperAZ c then
      match splitFirst '/' rest with
      | none =>
        if allDigits rest && 1 ≤ rest.length && rest.length ≤ 2 then
          some ([a, b, c], rest, none)
        else none
      | some (d, y) =>
        if allDigits d && 1 ≤ d.length && d.length ≤ 2 &&
           allDigits y && 2 ≤ y.length && y.length ≤ 4 then
          some ([a, b, c], d, some y)
        else none
    else none
  | _ => none

/-- Two-digit years are moved into the 2000s (lines 53-58). -/
def adjYear (v : Nat) : Nat :=
  if v < 100 then v + 2000 else v

/-- `_parse_date_part` (lines 43-59).  Note that an unrecognized month
token still yields the parsed day and year: only `mon` is `None`. -/
def parse_date_part (part : Option Str) : Option Nat × Option Nat × Option Nat :=
  match part with
  | none => (none, none, none)
  | some p =>
    if p.isEmpty then (none, none, none) else
    let t := ((pyStrip p).map Char.toUpper).filter (fun c => c != ' ')
    match dateRegexMatch t with
    | none => (none, none, none)
    | some (tok, dstr, ystr) =>
      (monthsGet tok, some (natOfDigits dstr), ystr.map (fun ys => adjYear (natOfDigits ys)))

/-- A Python `datetime.date` value. -/
structure PyDate where
  year : Nat
  month : Nat
  day : Nat
deriving DecidableEq, Repr

def isLeap (y : Nat) : Bool :=
  y % 4 == 0 && (y % 100 != 0 || y % 400 == 0)

def daysInMonth (y m : Nat) : Nat :=
  if m == 2 then (if isLeap y then 29 else 28)
  else if m == 4 || m == 6 || m == 9 || m == 11 then 30
  else 31

/-- The `datetime.date` constructor: raises `ValueError` on an invalid
calendar date (modelled as `Except.error`). -/
def mkDate (y m d : Nat) : Except String PyDate :=
  if 1 ≤ y && y ≤ 9999 && 1 ≤ m && m ≤ 12 && 1 ≤ d && d ≤ daysInMonth y m then
    .ok ⟨y, m, d⟩
  else .error "ValueError"

/-- `date(yr, m, d) if (yr and m and d) else None` (lines 72-73), with
Python truthiness on each component. -/
def mkEndpoint (yr m d : Option Nat) : Except String (Option PyDate) :=
  if truthyN yr && truthyN m && truthyN d then
    (mkDate (yr.getD 0) (m.getD 0) (d.getD 0)).map some
  else .ok none

/-- Sequence the two endpoint constructions of lines 72-73: the
exception from the first (the start date line) wins. -/
def combineEndpoints (a b : Except String (Option PyDate)) :
    Except String (Option PyDate × Option PyDate) :=
  match a with
  | .error e => .error e
  | .ok sdte =>
    match b with
    | .error e => .error e
    | .ok edte => .ok (sdte, edte)

/-- `_parse_date_range` (lines 61-74).  The resolved year `yr = ey or sy`
is shared by both endpoints. -/
def parse_date_range (txt : Option Str) : Except String (Option PyDate × Option PyDate) :=
  match txt with
  | none => .ok (none, none)
  | some s =>
    if s.isEmpty then .ok (none, none) else
    let t := (s.map Char.toUpper).filter (fun c => !isPySpace c)
    let parts := splitAll '-' t
    let s1 := parse_date_part (some (parts.headD []))
    let s2 := parse_date_part parts[1]?
    let yr := pyOrNat s2.2.2 s1.2.2
    combineEndpoints (mkEndpoint yr s1.1 s1.2.1) (mkEndpoint yr s2.1 s2.2.1)

/- ------------------------------------------------------------------ -/
/- Page Extractor: `parse_html_bytes` (lines 76-121)                  -/
/- ------------------------------------------------------------------ -/

/-- One `<td>` cell, abstracted at the point after BeautifulSoup text
extraction: `text` is the cell text as `get_text` returns it, `href` the
first embedded hyperlink target, if any. -/
structure Cell where
  text : Str
  href : Option Str
deriving DecidableEq, Repr

/-- One `<tr>` selected by `table tr:has(td)` (its list of `<td>` cells). -/
abbrev Row := List Cell

/-- One saved HTML page, abstracted as the rows BeautifulSoup selects.
The byte-level HTML parse itself is the abstraction boundary: a page with
no `<table>` markup is simply `[]`. -/
abbrev Page := List Row

/-- `urllib.parse.urljoin(BASE_URL, href)` with the fixed base
`https://thetradeshowcalendar.com/ttn/index.php`.  The external library
call is modelled for the common href shapes (absolute, protocol-relative,
root-relative, relative); dot-segment normalization is not modelled, and
no claim depends on the resolved value. -/
def urljoin (href : Str) : Str :=
  if "http://".data.isPrefixOf href || "https://".data.isPrefixOf href then href
  else if "//".data.isPrefixOf href then "https:".data ++ href
  else if "/".data.isPrefixOf href then "https://thetradeshowcalendar.com".data ++ href
  else "https://thetradeshowcalendar.com/ttn/".data ++ href

/-- One output record (the dict built at lines 106-116). -/
structure Record where
  showName : Str
  eventURL : Option Str
  startDate : Option Str
  endDate : Option Str
  city : Option Str
  state : Option Str
  country : Option Str
  attendees : Option Nat
  exhibitors : Option Nat
deriving DecidableEq, Repr

/-- Decimal digits of `n` (Python `str(n)`). -/
def natDigits (n : Nat) : Str :=
  Nat.toDigits 10 n

/-- Left-pad with zeros to width `w`. -/
def padZeros (w : Nat) (s : Str) : Str :=
  List.replicate (w - s.length) '0' ++ s

/-- Python `date.isoformat()`: `YYYY-MM-DD`. -/
def isoformat (d : PyDate) : Str :=
  padZeros 4 (natDigits d.year) ++ "-".data ++ padZeros 2 (natDigits d.month)
    ++ "-".data ++ padZeros 2 (natDigits d.day)

/-- `"" if s is empty else s`, modelling `... or None` (lines 111-113). -/
def noneIfEmpty (s : Str) : Option Str :=
  if s.isEmpty then none else some s

/-- The body of the row loop (lines 82-116).  `ok none` is a `continue`;
an error is the uncaught `ValueError` escaping from `_parse_date_range`. -/
def rowToRecord (tr : Row) : Except String (Option Record) :=
  if tr.length < 6 then .ok none else
  match tr with
  | c0 :: c1 :: c2 :: c3 :: c4 :: c5 :: _ =>
    let name := c0.text
    if name.isEmpty then .ok none else
    let url := c0.href.map urljoin
    let cityraw := c2.text
    let (city0, state0) :=
      match splitFirst ',' cityraw with
      | some (a, b) => (a, some b)
      | none => (cityraw, none)
    let city := if city0.isEmpty then none else some (pyStrip city0)
    let state := match state0 with
      | none => none
      | some s => if s.isEmpty then none else some (pyStrip s)
    match parse_date_range (some c1.text) with
    | .error e => .error e
    | .ok (sdte, edte) =>
      .ok (some {
        showName := name
        eventURL := url
        startDate := sdte.map isoformat
        endDate := edte.map isoformat
        city := noneIfEmpty ((city.getD []).map Char.toUpper)
        state := noneIfEmpty ((state.getD []).map Char.toUpper)
        country := noneIfEmpty (c3.text.map Char.toUpper)
        attendees := parse_count (some c4.text)
        exhibitors := parse_count (some c5.text) })
  | _ => .ok none

/-- The row loop of `parse_html_bytes`, in page order, stopping at the
first uncaught exception. -/
def pageRecords : List Row → Except String (List Record)
  | [] => .ok []
  | tr :: rest =>
    match rowToRecord tr with
    | .error e => .error e
    | .ok o =>
      match pageRecords rest with
      | .error e => .error e
      | .ok rs => .ok (match o with | none => rs | some r => r :: rs)

/-- `pandas.DataFrame`, reduced to what the program observes: its rows and
whether it has columns.  `pd.DataFrame(rows)` has columns iff `rows` is
non-empty; `pd.DataFrame(columns=[...])` has columns with no rows.
Accessing a column of a frame without columns raises `KeyError`. -/
structure DataFrame where
  hasCols : Bool
  rows : List Record
deriving DecidableEq, Repr

/-- `df.drop_duplicates()`: keep the first occurrence of each row. -/
def dedupAux (seen : List Record) : List Record → List Record
  | [] => []
  | r :: rs => if r ∈ seen then dedupAux seen rs else r :: dedupAux (r :: seen) rs

/-- `parse_html_bytes` (lines 76-121).  `dropna(subset=["Show Name"])` is
a no-op because rows with an empty name were already skipped, and
`drop_duplicates()` keeps first occurrences. -/
def parse_html_bytes (page : Page) : Except String DataFrame :=
  match pageRecords page with
  | .error e => .error e
  | .ok rows =>
    if rows.isEmpty then .ok ⟨false, []⟩
    else .ok ⟨true, dedupAux [] rows⟩

/- ------------------------------------------------------------------ -/
/- Batch Aggregator: `parse_many` (lines 123-152)                     -/
/- ------------------------------------------------------------------ -/

/-- `[parse_html_bytes(b) for b in files]`: first exception aborts. -/
def framesOf : List Page → Except String (List DataFrame)
  | [] => .ok []
  | p :: ps =>
    match parse_html_bytes p with
    | .error e => .error e
    | .ok df =>
      match framesOf ps with
      | .error e => .error e
      | .ok dfs => .ok (df :: dfs)

/-- `(?i)^\s*(show names|now showing)` via `Series.str.match` (prefix
match, case-insensitive, leading whitespace allowed). -/
def showNameNoise (s : Str) : Bool :=
  let t := (s.dropWhile isPySpace).map Char.toLower
  "show names".data.isPrefixOf t || "now showing".data.isPrefixOf t

/-- `(?i)^\s*WORD$` via `Series.str.match`: optional leading whitespace,
then the word, then end of string (`$` also matches just before one
trailing newline). -/
def headerExact (word : Str) (s : Str) : Bool :=
  let t := (s.dropWhile isPySpace).map Char.toLower
  t == word || t == word ++ ['\n']

def cityHeaderHit (s : Str) : Bool := headerExact "city".data s

def countryHeaderHit (s : Str) : Bool := headerExact "country".data s

/-- First noise filter (lines 135-138): keep rows with a present Start
Date whose Show Name is not a header/footer artifact. -/
def keepRow1 (r : Record) : Bool :=
  r.startDate.isSome && !showNameNoise r.showName

/-- Second noise filter (lines 139-142): `~city_match & ~country_match` —
a row is dropped when EITHER pattern matches its (null-filled) City or
Country text. -/
def keepRow2 (r : Record) : Bool :=
  !cityHeaderHit (r.city.getD []) && !countryHeaderHit (r.country.getD [])

/-- Location canonicalization (lines 144-147):
`fillna("").str.upper().replace({"NONE": ""})` — upper-case first, then
replace a whole value equal to `NONE` by the empty string. -/
def canonLoc (v : Option Str) : Str :=
  let u := (v.getD []).map Char.toUpper
  if u = "NONE".data then [] else u

def canonRecord (r : Record) : Record :=
  { r with
    city := some (canonLoc r.city)
    state := some (canonLoc r.state)
    country := some (canonLoc r.country) }

/-- Sort key (line 150): Exhibitors, Attendees, Start Date. -/
def recKey (r : Record) : Option Nat × Option Nat × Option Str :=
  (r.exhibitors, r.attendees, r.startDate)

/-- Three-way comparison on `Nat`. -/
def natCmp (a b : Nat) : Ordering :=
  if a < b then .lt else if b < a then .gt else .eq

/-- Descending order on an optional numeric column, missing values last
(`ascending=False`, `na_position="last"`). -/
def cmpOptDesc : Option Nat → Option Nat → Ordering
  | none, none => .eq
  | none, some _ => .gt
  | some _, none => .lt
  | some a, some b => natCmp b a

/-- Lexicographic comparison of strings by character code. -/
def strCmp : Str → Str → Ordering
  | [], [] => .eq
  | [], _ :: _ => .lt
  | _ :: _, [] => .gt
  | a :: s, b :: t => (natCmp a.toNat b.toNat).then (strCmp s t)

/-- Ascending order on an optional string column, missing values last
(`ascending=True`, `na_position="last"`). -/
def cmpOptStrAsc : Option Str → Option Str → Ordering
  | none, none => .eq
  | none, some _ => .gt
  | some _, none => .lt
  | some a, some b => strCmp a b

/-- The three-key comparator of line 150. -/
def cmpKey : Option Nat × Option Nat × Option Str → Option Nat × Option Nat × Option Str → Ordering
  | (x1, y1, z1), (x2, y2, z2) =>
    (cmpOptDesc x1 x2).then ((cmpOptDesc y1 y2).then (cmpOptStrAsc z1 z2))

/-- `r` sorts at-or-before `s` under the three-key comparator. -/
def recLE (r s : Record) : Prop :=
  cmpKey (recKey r) (recKey s) ≠ .gt

instance : DecidableRel recLE :=
  fun a b => inferInstanceAs (Decidable (cmpKey (recKey a) (recKey b) ≠ .gt))

/-- The full cleaning pipeline applied to the concatenated rows (lines
135-147): both noise filters, then location canonicalization. -/
def cleanRows (rows : List Record) : List Record :=
  ((rows.filter keepRow1).filter keepRow2).map canonRecord

/-- `parse_many` (lines 123-152).  `pd.concat` unions the columns of the
frames, so when every page produced zero records the concatenated frame
has no columns and the column access `df["Start Date"]` raises KeyError.
`sort_values` on several keys is a stable lexicographic sort
(modelled by insertion sort); `reset_index(drop=True)` is a no-op here. -/
def parse_many (files : List Page) : Except String DataFrame :=
  match framesOf files with
  | .error e => .error e
  | .ok frames =>
    if frames.isEmpty then .ok ⟨true, []⟩ else
    let df : DataFrame := ⟨frames.any (fun f => f.hasCols), (frames.map (fun f => f.rows)).flatten⟩
    if !df.hasCols then .error "KeyError" else
    .ok ⟨true, List.insertionSort recLE (cleanRows df.rows)⟩

/- ------------------------------------------------------------------ -/
/- Concrete inputs used by the claim theorems                         -/
/- ------------------------------------------------------------------ -/

/-- A six-cell table row with the given cell texts and no hyperlinks. -/
def rowOf6 (a b c d e f : Str) : Row :=
  [⟨a, none⟩, ⟨b, none⟩, ⟨c, none⟩, ⟨d, none⟩, ⟨e, none⟩, ⟨f, none⟩]

/-- A page whose single row has fewer than six cells: it is selected by
`table tr:has(td)` but skipped, so the page yields zero records. -/
def pageNoRecords : Page := [[⟨"junk".data, none⟩]]

def pageDup : Page :=
  [rowOf6 "Expo".data "AUG/22 - AUG/28/2025".data "Tampa, FL".data "USA".data "500".data "100".data]

/-- The canonicalized record extracted from `pageDup`. -/
def recExpo : Record :=
  ⟨"Expo".data, none, some "2025-08-22".data, some "2025-08-28".data,
   some "TAMPA".data, some "FL".data, some "USA".data, some 500, some 100⟩

def pageCityHdr : Page :=
  [rowOf6 "Expo".data "AUG/22 - AUG/28/2025".data "City".data "USA".data "500".data "100".data]

def pageNoneCity : Page :=
  [rowOf6 "Expo".data "AUG/22 - AUG/28/2025".data "none".data "USA".data "500".data "100".data]

/-- The canonicalized record extracted from `pageNoneCity`: its City is
the empty string, not the text `none`. -/
def recNoneCity : Record :=
  ⟨"Expo".data, none, some "2025-08-22".data, some "2025-08-28".data,
   some [], some [], some "USA".data, some 500, some 100⟩

def pageAlpha : Page :=
  [rowOf6 "Alpha".data "AUG/22 - AUG/28/2025".data "Tampa".data "USA".data "500".data "100".data]

def pageBeta : Page :=
  [rowOf6 "Beta".data "AUG/22 - AUG/28/2025".data "Lyon".data "France".data "500".data "100".data]

def recAlpha : Record :=
  ⟨"Alpha".data, none, some "2025-08-22".data, some "2025-08-28".data,
   some "TAMPA".data, some [], some "USA".data, some 500, some 100⟩

def recBeta : Record :=
  ⟨"Beta".data, none, some "2025-08-22".data, some "2025-08-28".data,
   some "LYON".data, some [], some "FRANCE".data, some 500, some 100⟩

/- ------------------------------------------------------------------ -/
/- Claim theorems                                                     -/
/- ------------------------------------------------------------------ -/

/-- Claim C1 (code bug, evaluated at the failing input): for a non-empty
batch in which every page yields zero records, the spec promises an empty
result and no error, but `parse_many` concatenates column-less empty
frames and the subsequent column access `df["Start Date"]` raises
`KeyError`.  Here the batch holds one page whose only row has fewer than
six cells, so every page yields zero records. -/
theorem C1_all_pages_empty_raises_keyerror :
    parse_many [pageNoRecords] = .error "KeyError" := by decide

/-- Claim C2 (code bug, evaluated at the failing input): the spec says
`_parse_date_range` never raises, but a text matching the month/day/year
pattern with a day out of range for the month reaches the `datetime.date`
constructor, which raises `ValueError`. -/
theorem C2_invalid_calendar_date_raises :
    parse_date_range (some "FEB/30/2025".data) = .error "ValueError" := by decide

/-- Claim C3 counterexample: two byte buffers each containing the same
qualifying row yield TWO equal records in the aggregated output, not one —
`drop_duplicates` runs per page only, and `parse_many` never deduplicates
the concatenation. -/
theorem C3_cex_duplicate_across_pages :
    parse_many [pageDup, pageDup] = .ok ⟨true, [recExpo, recExpo]⟩ := by decide

/-- Claim C4 counterexample: in `AUG/22-AUG/28/2025` the start part
carries no year of its own, yet the start endpoint is built with the end
part year 2025 — `yr = ey or sy` is shared by both endpoints, so a
missing start-year DOES inherit from the end. -/
theorem C4_cex_start_inherits_end_year :
    parse_date_range (some "AUG/22-AUG/28/2025".data) =
      .ok (some ⟨2025, 8, 22⟩, some ⟨2025, 8, 28⟩) := by decide

/-- Claim C5 counterexample: a record whose City text is `CITY` but whose
Country is `USA` matches only one of the two header patterns, yet it is
dropped: line 139-142 keeps a row only when NEITHER pattern matches. -/
theorem C5_cex_city_alone_dropped :
    parse_many [pageCityHdr] = .ok ⟨true, []⟩ := by decide

/-- Claim C6 counterexample: in `0-100` both parts parse (to 0 and 100),
so the claim expects the floored mean 50; but Python truthiness makes the
0 part falsy and line 40 returns `a or b = 100` instead. -/
theorem C6_cex_zero_part :
    parse_count (some "0-100".data) = some 100 := by decide

/-- Claim C7 counterexample: the part `XYZ/5/2025` has an unrecognized
month token, yet it does NOT wholly fail — its day and year still parse,
and its year 2025 resolves the year of the other endpoint `AUG/22`. -/
theorem C7_cex_bad_month_year_leaks :
    parse_date_range (some "XYZ/5/2025-AUG/22".data) =
      .ok (none, some ⟨2025, 8, 22⟩) := by decide

/-- Claim C8 counterexample: a surviving record whose City source text is
the lower-case `none` does NOT slip through the scrub: the canonical pass
upper-cases before the whole-value replace, so its output City is the
empty string. -/
theorem C8_cex_lowercase_none_scrubbed :
    parse_many [pageNoneCity] = .ok ⟨true, [recNoneCity]⟩ := by decide

/-- Claim C9: the Count Normalizer satisfies the spec input/output
table. -/
theorem C9_count_table :
    parse_count (some "500+".data) = some 500 ∧
    parse_count (some "20k-50k".data) = some 35000 ∧
    parse_count (some "12,345".data) = some 12345 ∧
    parse_count (some "".data) = none ∧
    parse_count (some "N/A".data) = none :=
  ⟨by decide, by decide, by decide, by decide, by decide⟩

/-- Claim C10 counterexample: two buffers whose records tie on all three
sort keys.  The sort is stable, so the tied records keep their
concatenation order and the two buffer orderings give different final
outputs. -/
theorem C10_cex_tie_order_differs :
    parse_many [pageAlpha, pageBeta] = .ok ⟨true, [recAlpha, recBeta]⟩ ∧
    parse_many [pageBeta, pageAlpha] = .ok ⟨true, [recBeta, recAlpha]⟩ ∧
    [recAlpha, recBeta] ≠ [recBeta, recAlpha] :=
  ⟨by decide, by decide, by decide⟩

/- ------------------------------------------------------------------ -/
/- Helper lemmas                                                      -/
/- ------------------------------------------------------------------ -/

lemma dedupAux_not_mem_seen (l : List Record) :
    ∀ seen, ∀ r ∈ dedupAux seen l, r ∉ seen := by
  induction l with
  | nil => intro seen r hr; simp [dedupAux] at hr
  | cons a t ih =>
    intro seen r hr
    by_cases ha : a ∈ seen
    · rw [dedupAux, if_pos ha] at hr
      exact ih seen r hr
    · rw [dedupAux, if_neg ha] at hr
      rcases List.mem_cons.mp hr with rfl | hr2
      · exact ha
      · intro hseen
        exact ih (a :: seen) r hr2 (List.mem_cons_of_mem a hseen)

lemma dedupAux_nodup (l : List Record) : ∀ seen, (dedupAux seen l).Nodup := by
  induction l with
  | nil => intro seen; simp [dedupAux]
  | cons a t ih =>
    intro seen
    by_cases ha : a ∈ seen
    · rw [dedupAux, if_pos ha]; exact ih seen
    · rw [dedupAux, if_neg ha]
      refine List.nodup_cons.mpr ⟨?_, ih (a :: seen)⟩
      intro hmem
      exact dedupAux_not_mem_seen t (a :: seen) a hmem (List.mem_cons_self a seen)

lemma mkDate_year (y m d : Nat) (p : PyDate) (h : mkDate y m d = .ok p) :
    p.year = y := by
  unfold mkDate at h
  split at h
  · cases h; rfl
  · exact absurd h (by simp)

lemma mkEndpoint_year (yr m d : Option Nat) (dt : PyDate)
    (h : mkEndpoint yr m d = .ok (some dt)) : dt.year = yr.getD 0 := by
  unfold mkEndpoint at h
  split at h
  · rcases hmk : mkDate (yr.getD 0) (m.getD 0) (d.getD 0) with e | p
    · rw [hmk] at h
      exact absurd h (by simp [Except.map])
    · rw [hmk] at h
      simp only [Except.map, Except.ok.injEq, Option.some.injEq] at h
      rw [← h]
      exact mkDate_year _ _ _ _ hmk
  · exact absurd h (by simp)

lemma combineEndpoints_ok {a b : Except String (Option PyDate)}
    {p : Option PyDate × Option PyDate} (h : combineEndpoints a b = .ok p) :
    a = .ok p.1 ∧ b = .ok p.2 := by
  rcases a with e | x
  · simp [combineEndpoints] at h
  · rcases b with e | y
    · simp [combineEndpoints] at h
    · simp only [combineEndpoints, Except.ok.injEq] at h
      subst h
      exact ⟨rfl, rfl⟩

/- ------------------------------------------------------------------ -/
/- Amended claim theorems (first batch)                               -/
/- ------------------------------------------------------------------ -/

/-- Claim C3 amended: deduplication by full-field equality happens per
page only — within one page the extracted record list has no duplicates
(the counterexample shows the aggregated output of several pages can). -/
theorem C3_nodup_within_page (page : Page) (df : DataFrame)
    (h : parse_html_bytes page = .ok df) : df.rows.Nodup := by
  rcases hpr : pageRecords page with e | rows
  · simp only [parse_html_bytes, hpr] at h
    exact absurd h (by simp)
  · simp only [parse_html_bytes, hpr] at h
    by_cases hempty : rows.isEmpty = true
    · rw [if_pos hempty] at h
      cases h
      simp
    · rw [if_neg hempty] at h
      cases h
      exact dedupAux_nodup rows []

/-- Witness for C3: on the concrete page `pageDup` the extracted rows are
duplicate-free. -/
theorem C3_nodup_within_page_witness :
    (DataFrame.mk true [recExpo]).rows.Nodup :=
  C3_nodup_within_page pageDup ⟨true, [recExpo]⟩ (by decide)

/-- Claim C4 amended: both endpoints of `_parse_date_range` share one
resolved year, `yr = ey or sy` — the end year when present (and nonzero),
else the start year.  In particular a start part without a year inherits
the end year (the counterexample evaluates this), and whenever both
endpoints are produced their years are equal. -/
theorem C4_shared_year (txt : Str) (d1 d2 : PyDate)
    (h : parse_date_range (some txt) = .ok (some d1, some d2)) :
    d1.year = d2.year := by
  simp only [parse_date_range] at h
  split at h
  · simp at h
  · obtain ⟨h1, h2⟩ := combineEndpoints_ok h
    rw [mkEndpoint_year _ _ _ _ h1, mkEndpoint_year _ _ _ _ h2]

/-- Witness for C4 at `AUG/22-AUG/28/2025`. -/
theorem C4_shared_year_witness :
    (PyDate.mk 2025 8 22).year = (PyDate.mk 2025 8 28).year :=
  C4_shared_year "AUG/22-AUG/28/2025".data ⟨2025, 8, 22⟩ ⟨2025, 8, 28⟩ (by decide)

/-- Claim C6 amended: on a hyphen range the floored mean is returned only
when both parts parse to NONZERO values; a first part parsing to 0 is
falsy, so the result is then the second part result (line 40 `a or b`),
and when neither part parses the result is absent. -/
theorem C6_range_dispatch :
    (∀ t p q a b, rangeSplit (cleanCount t) = some (p, q) → toNum p = some a →
      toNum q = some b → a ≠ 0 → b ≠ 0 →
      parse_count (some t) = some ((a + b) / 2)) ∧
    (∀ t p q, rangeSplit (cleanCount t) = some (p, q) → toNum p = some 0 →
      parse_count (some t) = toNum q) ∧
    (∀ t p q, rangeSplit (cleanCount t) = some (p, q) → toNum p = none →
      toNum q = none → parse_count (some t) = none) := by
  have hne : ∀ (t : Str) (p q : Str), rangeSplit (cleanCount t) = some (p, q) →
      t.isEmpty = false := by
    intro t p q hsplit
    cases t with
    | nil => simp [cleanCount, rangeSplit, rangeSplitAux] at hsplit
    | cons c cs => rfl
  refine ⟨?_, ?_, ?_⟩
  · intro t p q a b hsplit hp hq ha hb
    simp only [parse_count, hne t p q hsplit, Bool.false_eq_true, if_false, hsplit, hp, hq,
      truthyN]
    simp [ha, hb]
  · intro t p q hsplit hp
    simp only [parse_count, hne t p q hsplit, Bool.false_eq_true, if_false, hsplit, hp,
      truthyN]
    simp [pyOrNat, truthyN, hp]
  · intro t p q hsplit hp hq
    simp only [parse_count, hne t p q hsplit, Bool.false_eq_true, if_false, hsplit, hp, hq,
      truthyN]
    simp [pyOrNat, truthyN]

/-- Witness for C6 at `20-30`. -/
theorem C6_range_dispatch_witness :
    parse_count (some "20-30".data) = some ((20 + 30) / 2) :=
  C6_range_dispatch.1 "20-30".data "20".data "30".data 20 30
    (by decide) (by decide) (by decide) (by decide) (by decide)

/-- Claim C7 amended: a date part whose three-letter token is not in the
month table does NOT wholly fail — the month is absent (so that part
yields no date of its own) but the day and year still parse, and the year
can resolve the other endpoint (the counterexample evaluates this). -/
theorem C7_bad_month_keeps_day_year (p tok dstr : Str) (ystr : Option Str)
    (hm : dateRegexMatch (((pyStrip p).map Char.toUpper).filter (fun c => c != ' ')) =
      some (tok, dstr, ystr))
    (hu : monthsGet tok = none) :
    parse_date_part (some p) =
      (none, some (natOfDigits dstr), ystr.map (fun ys => adjYear (natOfDigits ys))) := by
  have hpne : p.isEmpty = false := by
    cases p with
    | nil => simp [pyStrip, dateRegexMatch] at hm
    | cons c cs => rfl
  simp only [parse_date_part, hpne, Bool.false_eq_true, if_false, hm, hu]

/-- Witness for C7 at `XYZ/5/25`. -/
theorem C7_bad_month_keeps_day_year_witness :
    parse_date_part (some "XYZ/5/25".data) =
      (none, some (natOfDigits "5".data),
        (some "25".data).map (fun ys => adjYear (natOfDigits ys))) :=
  C7_bad_month_keeps_day_year "XYZ/5/25".data "XYZ".data "5".data (some "25".data)
    (by decide) (by decide)

/-- Every row of a successful `parse_many` result is the canonicalization
of a record that passed both noise filters. -/
lemma parse_many_rows_shape (files : List Page) (df : DataFrame) (r : Record)
    (h : parse_many files = .ok df) (hr : r ∈ df.rows) :
    ∃ r0, keepRow1 r0 = true ∧ keepRow2 r0 = true ∧ r = canonRecord r0 := by
  rcases hf : framesOf files with e | frames
  · simp only [parse_many, hf] at h
    exact absurd h (by simp)
  · simp only [parse_many, hf] at h
    by_cases hnil : frames.isEmpty = true
    · rw [if_pos hnil] at h
      cases h
      simp at hr
    · rw [if_neg hnil] at h
      by_cases hcols : (frames.any fun f => f.hasCols) = true
      · simp only [hcols, Bool.not_true, Bool.false_eq_true, if_false] at h
        cases h
        simp only [List.mem_insertionSort] at hr
        simp only [cleanRows, List.mem_map, List.mem_filter] at hr
        obtain ⟨r0, ⟨⟨_, hk1⟩, hk2⟩, hEq⟩ := hr
        exact ⟨r0, hk1, hk2, hEq.symm⟩
      · simp only [Bool.not_eq_true] at hcols
        simp only [hcols, Bool.not_false, if_true] at h
        exact absurd h (by simp)

/-- Claim C5 amended: the stray-header rule drops a record when EITHER
its City text matches `city` or its Country text matches `country`
(case-insensitively); every surviving record matches neither. -/
theorem C5_survivor_matches_neither (files : List Page) (df : DataFrame) (r : Record)
    (h : parse_many files = .ok df) (hr : r ∈ df.rows) :
    ∃ r0, r = canonRecord r0 ∧ cityHeaderHit (r0.city.getD []) = false ∧
      countryHeaderHit (r0.country.getD []) = false := by
  obtain ⟨r0, _, hk2, hEq⟩ := parse_many_rows_shape files df r h hr
  simp only [keepRow2, Bool.and_eq_true, Bool.not_eq_true'] at hk2
  exact ⟨r0, hEq, hk2.1, hk2.2⟩

/-- Witness for C5 on the concrete batch `[pageDup]`. -/
theorem C5_survivor_matches_neither_witness :
    ∃ r0, recExpo = canonRecord r0 ∧ cityHeaderHit (r0.city.getD []) = false ∧
      countryHeaderHit (r0.country.getD []) = false :=
  C5_survivor_matches_neither [pageDup] ⟨true, [recExpo]⟩ recExpo (by decide) (by decide)

/-- Claim C8 amended: the whole-value replace of `NONE` is textually
case-sensitive, but it runs AFTER upper-casing (and extraction already
upper-cased the field), so the source text `none` is scrubbed to the
empty string and no output record carries City text `NONE`. -/
theorem C8_upper_runs_before_scrub :
    canonLoc (some "none".data) = [] ∧
    ∀ (files : List Page) (df : DataFrame) (r : Record),
      parse_many files = .ok df → r ∈ df.rows → r.city ≠ some "NONE".data := by
  constructor
  · decide
  · intro files df r h hr
    obtain ⟨r0, _, _, hEq⟩ := parse_many_rows_shape files df r h hr
    subst hEq
    simp only [canonRecord, ne_eq, Option.some.injEq]
    intro hc
    simp only [canonLoc] at hc
    split at hc
    · exact absurd hc (by decide)
    · next hne => exact hne hc

/-- Witness for C8 on the concrete batch `[pageDup]`. -/
theorem C8_upper_runs_before_scrub_witness :
    recExpo.city ≠ some "NONE".data :=
  C8_upper_runs_before_scrub.2 [pageDup] ⟨true, [recExpo]⟩ recExpo (by decide) (by decide)

/- ------------------------------------------------------------------ -/
/- Comparator lemmas for the three-key sort                           -/
/- ------------------------------------------------------------------ -/

lemma then_eq_iff {a b : Ordering} : a.then b = .eq ↔ a = .eq ∧ b = .eq := by
  cases a <;> simp [Ordering.then]

lemma then_lt_iff {a b : Ordering} : a.then b = .lt ↔ a = .lt ∨ (a = .eq ∧ b = .lt) := by
  cases a <;> simp [Ordering.then]

lemma then_gt_iff {a b : Ordering} : a.then b = .gt ↔ a = .gt ∨ (a = .eq ∧ b = .gt) := by
  cases a <;> simp [Ordering.then]

lemma natCmp_lt_iff {a b : Nat} : natCmp a b = .lt ↔ a < b := by
  unfold natCmp
  by_cases h1 : a < b
  · simp [h1]
  · by_cases h2 : b < a <;> simp [h1, h2]

lemma natCmp_gt_iff {a b : Nat} : natCmp a b = .gt ↔ b < a := by
  unfold natCmp
  by_cases h1 : a < b
  · simp [h1]; omega
  · by_cases h2 : b < a <;> simp [h1, h2]

lemma natCmp_eq_iff {a b : Nat} : natCmp a b = .eq ↔ a = b := by
  unfold natCmp
  by_cases h1 : a < b
  · simp [h1]; omega
  · by_cases h2 : b < a <;> simp [h1, h2] <;> omega

lemma charToNat_inj {a b : Char} (h : a.toNat = b.toNat) : a = b := by
  have h2 := congrArg Char.ofNat h
  rwa [Char.ofNat_toNat, Char.ofNat_toNat] at h2

lemma strCmp_eq_iff : ∀ {s t : Str}, strCmp s t = .eq ↔ s = t := by
  intro s
  induction s with
  | nil => intro t; cases t <;> simp [strCmp]
  | cons a s ih =>
    intro t
    cases t with
    | nil => simp [strCmp]
    | cons b t =>
      simp only [strCmp, then_eq_iff, natCmp_eq_iff, List.cons.injEq]
      constructor
      · rintro ⟨h1, h2⟩
        exact ⟨charToNat_inj h1, ih.mp h2⟩
      · rintro ⟨rfl, rfl⟩
        exact ⟨rfl, ih.mpr rfl⟩

lemma strCmp_gt_iff : ∀ {s t : Str}, strCmp s t = .gt ↔ strCmp t s = .lt := by
  intro s
  induction s with
  | nil => intro t; cases t <;> simp [strCmp]
  | cons a s ih =>
    intro t
    cases t with
    | nil => simp [strCmp]
    | cons b t =>
      simp only [strCmp, then_gt_iff, then_lt_iff, natCmp_gt_iff, natCmp_lt_iff,
        natCmp_eq_iff, ih]
      constructor
      · rintro (h | ⟨h1, h2⟩)
        · exact Or.inl h
        · exact Or.inr ⟨h1.symm, h2⟩
      · rintro (h | ⟨h1, h2⟩)
        · exact Or.inl h
        · exact Or.inr ⟨h1.symm, h2⟩

lemma strCmp_lt_trans : ∀ (s t u : Str), strCmp s t = .lt → strCmp t u = .lt →
    strCmp s u = .lt := by
  intro s
  induction s with
  | nil =>
    intro t u h1 h2
    cases t with
    | nil => simp [strCmp] at h1
    | cons b t =>
      cases u with
      | nil => simp [strCmp] at h2
      | cons c u => simp [strCmp]
  | cons a s ih =>
    intro t u h1 h2
    cases t with
    | nil => simp [strCmp] at h1
    | cons b t =>
      cases u with
      | nil => simp [strCmp] at h2
      | cons c u =>
        simp only [strCmp, then_lt_iff, natCmp_lt_iff, natCmp_eq_iff] at h1 h2 ⊢
        rcases h1 with h1 | ⟨h1e, h1s⟩
        · rcases h2 with h2 | ⟨h2e, h2s⟩
          · exact Or.inl (by omega)
          · exact Or.inl (by omega)
        · rcases h2 with h2 | ⟨h2e, h2s⟩
          · exact Or.inl (by omega)
          · exact Or.inr ⟨by omega, ih t u h1s h2s⟩

lemma cmpOptDesc_eq_iff : ∀ {x y : Option Nat}, cmpOptDesc x y = .eq ↔ x = y := by
  intro x y
  cases x with
  | none => cases y <;> simp [cmpOptDesc]
  | some a =>
    cases y with
    | none => simp [cmpOptDesc]
    | some b =>
      simp only [cmpOptDesc, natCmp_eq_iff, Option.some.injEq]
      exact eq_comm

lemma cmpOptDesc_gt_iff : ∀ {x y : Option Nat}, cmpOptDesc x y = .gt ↔ cmpOptDesc y x = .lt := by
  intro x y
  cases x <;> cases y <;> simp [cmpOptDesc, natCmp_gt_iff, natCmp_lt_iff]

lemma cmpOptDesc_lt_trans : ∀ {x y z : Option Nat}, cmpOptDesc x y = .lt →
    cmpOptDesc y z = .lt → cmpOptDesc x z = .lt := by
  intro x y z h1 h2
  cases x <;> cases y <;> cases z <;> simp_all [cmpOptDesc, natCmp_lt_iff]
  omega

lemma cmpOptStrAsc_eq_iff : ∀ {x y : Option Str}, cmpOptStrAsc x y = .eq ↔ x = y := by
  intro x y
  cases x <;> cases y <;> simp [cmpOptStrAsc, strCmp_eq_iff]

lemma cmpOptStrAsc_gt_iff : ∀ {x y : Option Str},
    cmpOptStrAsc x y = .gt ↔ cmpOptStrAsc y x = .lt := by
  intro x y
  cases x <;> cases y <;> simp [cmpOptStrAsc, strCmp_gt_iff]

lemma cmpOptStrAsc_lt_trans : ∀ {x y z : Option Str}, cmpOptStrAsc x y = .lt →
    cmpOptStrAsc y z = .lt → cmpOptStrAsc x z = .lt := by
  intro x y z h1 h2
  cases x with
  | none => cases y <;> simp_all [cmpOptStrAsc]
  | some s =>
    cases y with
    | none => cases z <;> simp_all [cmpOptStrAsc]
    | some t =>
      cases z with
      | none => simp [cmpOptStrAsc]
      | some u =>
        simp only [cmpOptStrAsc] at h1 h2 ⊢
        exact strCmp_lt_trans s t u h1 h2

lemma cmpKey_eq_iff {k1 k2 : Option Nat × Option Nat × Option Str} :
    cmpKey k1 k2 = .eq ↔ k1 = k2 := by
  obtain ⟨x1, y1, z1⟩ := k1
  obtain ⟨x2, y2, z2⟩ := k2
  simp [cmpKey, then_eq_iff, cmpOptDesc_eq_iff, cmpOptStrAsc_eq_iff, Prod.mk.injEq, and_assoc]

lemma cmpKey_gt_iff {k1 k2 : Option Nat × Option Nat × Option Str} :
    cmpKey k1 k2 = .gt ↔ cmpKey k2 k1 = .lt := by
  obtain ⟨x1, y1, z1⟩ := k1
  obtain ⟨x2, y2, z2⟩ := k2
  simp only [cmpKey, then_gt_iff, then_lt_iff, cmpOptDesc_gt_iff, cmpOptDesc_eq_iff,
    cmpOptStrAsc_gt_iff]
  constructor
  · rintro (h | ⟨he, h | ⟨he2, h⟩⟩)
    · exact Or.inl h
    · exact Or.inr ⟨he.symm, Or.inl h⟩
    · exact Or.inr ⟨he.symm, Or.inr ⟨he2.symm, h⟩⟩
  · rintro (h | ⟨he, h | ⟨he2, h⟩⟩)
    · exact Or.inl h
    · exact Or.inr ⟨he.symm, Or.inl h⟩
    · exact Or.inr ⟨he.symm, Or.inr ⟨he2.symm, h⟩⟩

lemma cmpKey_lt_trans {k1 k2 k3 : Option Nat × Option Nat × Option Str}
    (h1 : cmpKey k1 k2 = .lt) (h2 : cmpKey k2 k3 = .lt) : cmpKey k1 k3 = .lt := by
  obtain ⟨x1, y1, z1⟩ := k1
  obtain ⟨x2, y2, z2⟩ := k2
  obtain ⟨x3, y3, z3⟩ := k3
  simp only [cmpKey, then_lt_iff, cmpOptDesc_eq_iff] at h1 h2 ⊢
  rcases h1 with h1 | ⟨rfl, h1⟩
  · rcases h2 with h2 | ⟨rfl, h2⟩
    · exact Or.inl (cmpOptDesc_lt_trans h1 h2)
    · exact Or.inl h1
  · rcases h2 with h2 | ⟨rfl, h2⟩
    · exact Or.inl h2
    · refine Or.inr ⟨rfl, ?_⟩
      rcases h1 with h1 | ⟨rfl, h1⟩
      · rcases h2 with h2 | ⟨rfl, h2⟩
        · exact Or.inl (cmpOptDesc_lt_trans h1 h2)
        · exact Or.inl h1
      · rcases h2 with h2 | ⟨rfl, h2⟩
        · exact Or.inl h2
        · exact Or.inr ⟨rfl, cmpOptStrAsc_lt_trans h1 h2⟩

lemma recLE_total (a b : Record) : recLE a b ∨ recLE b a := by
  unfold recLE
  by_cases h : cmpKey (recKey a) (recKey b) = .gt
  · right
    rw [cmpKey_gt_iff] at h
    rw [h]
    simp
  · exact Or.inl h

instance : IsTotal Record recLE := ⟨recLE_total⟩

lemma recLE_trans (a b c : Record) (h1 : recLE a b) (h2 : recLE b c) : recLE a c := by
  unfold recLE at h1 h2 ⊢
  cases hv1 : cmpKey (recKey a) (recKey b) with
  | gt => exact absurd hv1 h1
  | eq =>
    rw [cmpKey_eq_iff.mp hv1]
    exact h2
  | lt =>
    cases hv2 : cmpKey (recKey b) (recKey c) with
    | gt => exact absurd hv2 h2
    | eq =>
      rw [← cmpKey_eq_iff.mp hv2]
      rw [hv1]
      simp
    | lt =>
      rw [cmpKey_lt_trans hv1 hv2]
      simp

instance : IsTrans Record recLE := ⟨recLE_trans⟩

lemma recLE_antisymm_key {a b : Record} (h1 : recLE a b) (h2 : recLE b a) :
    recKey a = recKey b := by
  unfold recLE at h1 h2
  cases hv : cmpKey (recKey a) (recKey b) with
  | lt => exact absurd (cmpKey_gt_iff.mpr hv) h2
  | eq => exact cmpKey_eq_iff.mp hv
  | gt => exact absurd hv h1

/- ------------------------------------------------------------------ -/
/- Permutation lemmas for the aggregation pipeline                    -/
/- ------------------------------------------------------------------ -/

/-- Total restriction of `parse_html_bytes` (used to describe the frame
list when every page parsed successfully). -/
def phbOk (p : Page) : DataFrame :=
  match parse_html_bytes p with
  | .ok df => df
  | .error _ => ⟨false, []⟩

lemma framesOf_ok_map : ∀ {files : List Page} {frames : List DataFrame},
    framesOf files = .ok frames → frames = files.map phbOk := by
  intro files
  induction files with
  | nil =>
    intro frames h
    simp only [framesOf, Except.ok.injEq] at h
    simp [← h]
  | cons p ps ih =>
    intro frames h
    simp only [framesOf] at h
    rcases hb : parse_html_bytes p with e | df
    · rw [hb] at h; simp at h
    · rw [hb] at h
      rcases hf : framesOf ps with e2 | dfs
      · rw [hf] at h; simp at h
      · rw [hf] at h
        simp only [Except.ok.injEq] at h
        subst h
        simp [phbOk, hb, ih hf]

lemma any_perm {α : Type} {l1 l2 : List α} (h : l1.Perm l2) (f : α → Bool) :
    l1.any f = l2.any f := by
  cases h1 : l1.any f <;> cases h2 : l2.any f
  · rfl
  · rw [List.any_eq_true] at h2
    obtain ⟨x, hx, hfx⟩ := h2
    rw [List.any_eq_false] at h1
    exact absurd hfx (h1 x (h.mem_iff.mpr hx))
  · rw [List.any_eq_true] at h1
    obtain ⟨x, hx, hfx⟩ := h1
    rw [List.any_eq_false] at h2
    exact absurd hfx (h2 x (h.mem_iff.mp hx))
  · rfl

/-- Claim C10 amended: the pre-sort concatenation order does not affect
the final `parse_many` output PROVIDED no two distinct surviving records
tie on all three sort keys; the stable sort is then fully determined by
the keys.  (The counterexample shows the claim fails without that
proviso: records tying on all three keys keep their buffer order.) -/
theorem C10_output_determined_by_keys (files1 files2 : List Page)
    (hperm : files1.Perm files2) (df1 df2 : DataFrame)
    (h1 : parse_many files1 = .ok df1) (h2 : parse_many files2 = .ok df2)
    (hinj : ∀ a ∈ df1.rows, ∀ b ∈ df1.rows, recKey a = recKey b → a = b) :
    df1 = df2 := by
  rcases hf1 : framesOf files1 with e | F1
  · simp only [parse_many, hf1] at h1
    exact absurd h1 (by simp)
  rcases hf2 : framesOf files2 with e | F2
  · simp only [parse_many, hf2] at h2
    exact absurd h2 (by simp)
  simp only [parse_many, hf1] at h1
  simp only [parse_many, hf2] at h2
  have hF1 := framesOf_ok_map hf1
  have hF2 := framesOf_ok_map hf2
  subst hF1
  subst hF2
  by_cases hnil : files1 = []
  · subst hnil
    have hnil2 : files2 = [] := hperm.symm.eq_nil
    subst hnil2
    injection h1 with h1
    injection h2 with h2
    rw [← h1, ← h2]
  · have hnil2 : files2 ≠ [] := fun hh => hnil (List.Perm.eq_nil (hh ▸ hperm))
    have hie1 : (files1.map phbOk).isEmpty = false := by
      cases files1 with
      | nil => exact absurd rfl hnil
      | cons p ps => rfl
    have hie2 : (files2.map phbOk).isEmpty = false := by
      cases files2 with
      | nil => exact absurd rfl hnil2
      | cons p ps => rfl
    rw [hie1] at h1
    rw [hie2] at h2
    simp only [Bool.false_eq_true, if_false] at h1 h2
    have hany : ((files1.map phbOk).any fun f => f.hasCols) =
        ((files2.map phbOk).any fun f => f.hasCols) :=
      any_perm (hperm.map phbOk) _
    by_cases hcols : ((files1.map phbOk).any fun f => f.hasCols) = true
    · rw [hcols] at h1
      rw [← hany, hcols] at h2
      simp only [Bool.not_true, Bool.false_eq_true, if_false] at h1 h2
      injection h1 with h1
      injection h2 with h2
      subst h1
      subst h2
      have hrows := (List.Perm.map (fun f => f.rows) (hperm.map phbOk)).flatten
      have hclean : (cleanRows (((files1.map phbOk).map fun f => f.rows).flatten)).Perm
          (cleanRows (((files2.map phbOk).map fun f => f.rows).flatten)) := by
        unfold cleanRows
        exact (List.Perm.filter keepRow2 (List.Perm.filter keepRow1 hrows)).map canonRecord
      have hs1 := List.perm_insertionSort recLE
        (cleanRows (((files1.map phbOk).map fun f => f.rows).flatten))
      have hs2 := List.perm_insertionSort recLE
        (cleanRows (((files2.map phbOk).map fun f => f.rows).flatten))
      have hLperm := hs1.trans (hclean.trans hs2.symm)
      have hsorted1 := List.sorted_insertionSort recLE
        (cleanRows (((files1.map phbOk).map fun f => f.rows).flatten))
      have hsorted2 := List.sorted_insertionSort recLE
        (cleanRows (((files2.map phbOk).map fun f => f.rows).flatten))
      have hL := hLperm.eq_of_sorted
        (fun a b ha hb hab hba =>
          hinj a ha b (hLperm.mem_iff.mpr hb) (recLE_antisymm_key hab hba))
        hsorted1 hsorted2
      exact congrArg (DataFrame.mk true) hL
    · simp only [Bool.not_eq_true] at hcols
      rw [hcols] at h1
      simp only [Bool.not_false, if_true] at h1
      exact absurd h1 (by simp)

def pageGamma : Page :=
  [rowOf6 "Gamma".data "AUG/22 - AUG/28/2025".data "Lyon".data "France".data "500".data "50".data]

def recGamma : Record :=
  ⟨"Gamma".data, none, some "2025-08-22".data, some "2025-08-28".data,
   some "LYON".data, some [], some "FRANCE".data, some 500, some 50⟩

/-- The common output of the two orderings in the C10 witness. -/
def dfW : DataFrame := ⟨true, [recAlpha, recGamma]⟩

/-- Witness for C10 on two pages whose records have distinct Exhibitors
keys: both buffer orders give the same output. -/
theorem C10_output_determined_by_keys_witness :
    parse_many [pageAlpha, pageGamma] = parse_many [pageGamma, pageAlpha] := by
  have h1 : parse_many [pageAlpha, pageGamma] = .ok dfW := by decide
  have h2 : parse_many [pageGamma, pageAlpha] = .ok dfW := by decide
  exact h1.trans ((congrArg Except.ok
    (C10_output_determined_by_keys [pageAlpha, pageGamma] [pageGamma, pageAlpha]
      (List.Perm.swap pageGamma pageAlpha []) dfW dfW h1 h2 (by decide))).trans h2.symm)

end TradeShow
